import Mathlib

/-!
Verification development for the CasparCG playout-engine core
(`transition_producer.cpp`, `frame_producer_device.cpp`, `frame_muxer.cpp`,
`ffmpeg_consumer.cpp`).  Each C++ routine the claims touch is shallowly
embedded as an executable Lean function; stateful objects become explicit
state records, exceptions become `Except`/flags, machine integers become
`Nat` with explicit `% 2 ^ w` where overflow matters.
-/

namespace CasparSpec

/-! ## Transition producer (src/core/producer/transition/transition_producer.cpp) -/

/-- `transition::type` from `transition_info`. -/
inductive TType where
  | cut
  | mix
  | push
  | slide
  | wipe
deriving DecidableEq

/-- `transition_direction`. -/
inductive TDir where
  | from_left
  | from_right
deriving DecidableEq

/-- `transition_info`: duration counts composite frames; `current_frame_` in the
source is an `unsigned short`, so durations are below `2 ^ 16` in practice. -/
structure TInfo where
  ttype : TType
  duration : Nat
  direction : TDir
deriving DecidableEq

/-- Attributes a `transform_frame` wrapper sets on a wrapped frame in
`implementation::compose`: `audio_volume`, `alpha`, `translate`, `texcoord`.
Fields the compose step does not set stay `none` / the volume stays whatever
the caller wrote (compose always writes both volumes on the non-cut path). -/
structure Attr where
  volume : Nat
  alpha : Option ℚ := none
  translate : Option (ℚ × ℚ) := none
  texcoord : Option (ℚ × ℚ × ℚ × ℚ) := none
deriving DecidableEq

/-- `producer_frame`: the sentinels `eof` and `empty`, a plain payload frame
(`content`, identified by a tag), or a `composite_frame` of the transformed
source and destination (`std::make_shared<composite_frame>(src, dest)` with the
attributes each `transform_frame` carries). -/
inductive PFrame where
  | eof
  | empty
  | content (tag : Nat)
  | composite (srcF : PFrame) (srcA : Attr) (dstF : PFrame) (dstA : Attr)
deriving DecidableEq

/-- Result of one `frame_producer::receive()` call on a constituent producer:
either it raises (`throws`) or it returns a frame. -/
inductive RecvRes where
  | throws
  | ok (f : PFrame)
deriving DecidableEq

/-- A constituent producer, as the transition observes it: the sequence of
results its successive `receive()` calls deliver, whether promoting it as a
following producer raises from `initialize`/`set_leading_producer`
(`initFails`), and the producer returned by `get_following_producer()`
(`none` models a null pointer). -/
inductive SProducer where
  | mk (frames : Nat → RecvRes) (initFails : Bool) (following : Option SProducer)

/-- Results of the producer's successive receive calls. -/
def SProducer.frames : SProducer → Nat → RecvRes
  | .mk f _ _ => f

/-- Whether initializing this producer (when promoted as a follower) raises. -/
def SProducer.initFails : SProducer → Bool
  | .mk _ b _ => b

/-- The producer's following producer. -/
def SProducer.following : SProducer → Option SProducer
  | .mk _ _ f => f

/-- One constituent slot of the transition (`source_producer_` or
`dest_producer_`): the producer currently wired in (null once dropped) and how
many `receive()` calls were already made on it. -/
abbrev Slot := Option SProducer × Nat

/-- Length of the producer's following-producer chain. -/
def SProducer.depth : SProducer → Nat
  | .mk _ _ none => 0
  | .mk _ _ (some q) => q.depth + 1

/-- One step of `implementation::receive(frame_producer_ptr&)` on a non-null
producer: try `producer->receive()` — on an exception the frame stays `eof`
and the pointer is nulled; on a genuine `eof` with no following producer the
call returns `eof` (producer kept); with a following producer whose
initialization raises, the pointer is nulled (and the retried receive on the
null pointer yields `eof`); otherwise the following producer is promoted and
the receive is retried on it (`Sum.inr`). -/
def recvOnce : SProducer → Nat → (PFrame × Slot) ⊕ SProducer
  | .mk fr inies fol, k =>
    match fr k with
    | .throws => .inl (.eof, (none, k))
    | .ok f =>
      if f = .eof then
        match fol with
        | none => .inl (.eof, (some (.mk fr inies fol), k + 1))
        | some q => if q.initFails then .inl (.eof, (none, k)) else .inr q
      else .inl (f, (some (.mk fr inies fol), k + 1))

/-- Iteration of `recvOnce` down the following-producer chain, with explicit
fuel (structural recursion); `recvProd` passes the chain depth, which
`recvOnce` never exceeds, so the out-of-fuel branch is unreachable. -/
def recvProdF : Nat → SProducer → Nat → PFrame × Slot
  | 0, p, k =>
    (match recvOnce p k with
     | .inl r => r
     | .inr _ => (.eof, (none, k)))
  | fuel + 1, p, k =>
    (match recvOnce p k with
     | .inl r => r
     | .inr q => recvProdF fuel q 0)

/-- `implementation::receive(frame_producer_ptr&)` for a non-null producer:
iterate `recvOnce` through the following-producer chain (a promoted follower
receives from its own call index 0). -/
def recvProd (p : SProducer) (k : Nat) : PFrame × Slot :=
  recvProdF p.depth p k

/-- `implementation::receive(frame_producer_ptr&)`: a null producer yields
`eof` at once, otherwise defer to `recvProd`. -/
def innerReceive : Slot → PFrame × Slot
  | (none, k) => (.eof, (none, k))
  | (some p, k) => recvProd p k

/-- The `static_cast<unsigned char>(alpha * 256.0)` of
`implementation::compose`, with `alpha = current_frame_ / duration` for
`current_frame_ = k`, `duration = D`.  For `k ≤ D < 2 ^ 44` the double
computation is exact enough that the truncation equals `⌊256 k / D⌋`; the
conversion to `unsigned char` reduces mod 256 (relevant only at `k = D`,
where `alpha * 256.0 = 256`). -/
def volumeCast (k D : Nat) : Nat := 256 * k / D % 256

/-- `implementation::compose(dest_frame, src_frame)` at
`current_frame_ = k`, with the transition's info.  Both-`eof` short-circuits
to `eof`; `cut` returns the source frame untouched; otherwise both frames are
wrapped in `transform_frame`s, both audio volumes are written, and the
type-specific transform fields are set; the result is the composite
`(src, dest)` in that order. -/
def compose (info : TInfo) (k : Nat) (destF srcF : PFrame) : PFrame :=
  if destF = .eof ∧ srcF = .eof then .eof
  else if info.ttype = .cut then srcF
  else
    let D : Nat := info.duration
    let alpha : ℚ := (k : ℚ) / (D : ℚ)
    let v : Nat := volumeCast k D
    let dir : ℚ := if info.direction = .from_left then 1 else -1
    let srcA0 : Attr := { volume := 255 - v }
    let dstA0 : Attr := { volume := v }
    let (srcA, dstA) :=
      match info.ttype with
      | .mix => (srcA0, { dstA0 with alpha := some alpha })
      | .slide => (srcA0, { dstA0 with translate := some ((-1 + alpha) * dir, 0) })
      | .push =>
          ({ srcA0 with translate := some ((0 + alpha) * dir, 0) },
           { dstA0 with translate := some ((-1 + alpha) * dir, 0) })
      | .wipe =>
          (srcA0,
           { dstA0 with
              translate := some ((-1 + alpha) * dir, 0),
              texcoord := some ((-1 + alpha) * dir, 1, 1 - (1 - alpha) * dir, 0) })
      | .cut => (srcA0, dstA0)
    .composite srcF srcA destF dstA

/-- State of a `transition_producer::implementation`: the two constituent
slots, `current_frame_` (an `unsigned short`, kept reduced mod `2 ^ 16`), and
the immutable `transition_info`. -/
structure TState where
  src : Slot
  dst : Slot
  current : Nat
  info : TInfo

/-- `implementation::receive()`: `current_frame_++ >= duration` returns `eof`
(the post-increment bumps the counter in every call, wrapping as an
`unsigned short`); otherwise both constituents are received and composed with
the already-incremented counter. -/
def transReceive (s : TState) : PFrame × TState :=
  let cur' := (s.current + 1) % 65536
  if s.info.duration ≤ s.current then (.eof, { s with current := cur' })
  else
    let (df, dslot) := innerReceive s.dst
    let (sf, sslot) := innerReceive s.src
    (compose s.info cur' df sf, { s with current := cur', src := sslot, dst := dslot })

/-- State after `n` calls to `transition_producer::receive()`. -/
def transRun (s : TState) : Nat → TState
  | 0 => s
  | n + 1 => (transReceive (transRun s n)).2

/-- Result of the `(n + 1)`-th call to `transition_producer::receive()`. -/
def transNth (s : TState) (n : Nat) : PFrame := (transReceive (transRun s n)).1

/-- `implementation::get_following_producer()` returns the *current*
`dest_producer_` pointer. -/
def getFollowing (s : TState) : Option SProducer := s.dst.1

/-- Whether a frame is a `composite_frame`. -/
def PFrame.isComposite : PFrame → Bool
  | .composite _ _ _ _ => true
  | _ => false

/-- Fresh transition state as built by the constructor (with a non-null
`dest`): counter 0, source slot empty until `set_leading_producer`. -/
def transInit (dest : SProducer) (info : TInfo) : TState :=
  { src := (none, 0), dst := (some dest, 0), current := 0, info := info }

/-- Transition state right after `set_leading_producer(source)`. -/
def transInitLed (source dest : SProducer) (info : TInfo) : TState :=
  { src := (some source, 0), dst := (some dest, 0), current := 0, info := info }

/-- A producer that yields the same content frame forever, never raises and
has no following producer. -/
def constProd (tag : Nat) : SProducer := .mk (fun _ => .ok (.content tag)) false none

/-- A producer that yields `eof` on every receive, with no following
producer. -/
def eofProd : SProducer := .mk (fun _ => .ok .eof) false none

/-! ## Producer device (src/core/producer/frame_producer_device.cpp)

The device owns `std::map<int, layer> layers_`; `layer.cpp` itself is not part
of the sources, so the layer state machine is modelled from the spec (§4.3);
the device-level map manipulation is translated from the source. -/

/-- `load_option::type`: plain load, preview, or auto-play. -/
inductive LoadOpt where
  | default
  | preview
  | auto_play
deriving DecidableEq

/-- Spec-visible layer states. -/
inductive LState where
  | playing
  | paused
  | stopped
deriving DecidableEq

/-- Modelled from the spec: `layer` (src/core/producer/layer.cpp is not among
the sources).  A layer holds an optional foreground and background producer
(identified by tags here), its state, and the last emitted frame (returned
while paused). -/
structure Layer where
  fg : Option Nat
  bg : Option Nat
  lstate : LState
  last : PFrame
deriving DecidableEq

/-- The default-constructed (empty) layer that `std::map::operator[]`
materializes for an absent key. -/
def defaultLayer : Layer := { fg := none, bg := none, lstate := .stopped, last := .empty }

/-- Modelled from the spec: `layer::load` per the §4.3 state table — an empty
layer loads into the foreground (paused) under `preview` and into the
background (stopped) otherwise; a playing/paused layer replaces its
background; a stopped layer replaces its foreground. -/
def Layer.load (l : Layer) (p : Nat) (opt : LoadOpt) : Layer :=
  if l.fg = none ∧ l.bg = none then
    if opt = .preview then { l with fg := some p, lstate := .paused }
    else if opt = .auto_play then { l with fg := some p, lstate := .playing }
    else { l with bg := some p, lstate := .stopped }
  else
    match l.lstate with
    | .playing => { l with bg := some p }
    | .paused => { l with bg := some p }
    | .stopped => { l with fg := some p }

/-- Modelled from the spec: `layer::play` — promotes the background to the
foreground when the foreground is absent, and enters the playing state. -/
def Layer.play (l : Layer) : Layer :=
  match l.lstate, l.fg with
  | .stopped, none => { l with fg := l.bg, bg := none, lstate := .playing }
  | _, _ => { l with lstate := .playing }

/-- Modelled from the spec: `layer::pause`. -/
def Layer.pause (l : Layer) : Layer :=
  match l.lstate with
  | .playing => { l with lstate := .paused }
  | _ => l

/-- Modelled from the spec: `layer::stop`. -/
def Layer.stop (l : Layer) : Layer := { l with lstate := .stopped }

/-- Modelled from the spec: `layer::clear` drops both producers. -/
def Layer.clear (_l : Layer) : Layer :=
  { fg := none, bg := none, lstate := .stopped, last := .empty }

/-- Modelled from the spec: `layer::receive` — a stopped (or empty) layer
emits `empty`, a paused layer re-emits its last frame, a playing layer
advances its foreground producer. -/
def Layer.receive (l : Layer) : PFrame × Layer :=
  match l.lstate, l.fg with
  | .playing, some p => (.content p, { l with last := .content p })
  | .playing, none => (.empty, l)
  | .paused, _ => (l.last, l)
  | .stopped, _ => (.empty, l)

/-- The device's `std::map<int, layer>`, as a key-sorted association list
(front = smallest id, matching the map's iteration order). -/
abbrev LayerMap := List (Int × Layer)

/-- `layers_.find(id)`. -/
def findL : LayerMap → Int → Option Layer
  | [], _ => none
  | (k, l) :: rest, id => if k = id then some l else findL rest id

/-- Insert-or-replace at a key, keeping the list sorted by key (the effect of
writing through `layers_[id]`). -/
def setL : LayerMap → Int → Layer → LayerMap
  | [], id, l => [(id, l)]
  | (k, x) :: rest, id, l =>
    if id < k then (id, l) :: (k, x) :: rest
    else if id = k then (id, l) :: rest
    else (k, x) :: setL rest id l

/-- `layers_.erase(id)`. -/
def eraseL : LayerMap → Int → LayerMap
  | [], _ => []
  | (k, x) :: rest, id => if k = id then rest else (k, x) :: eraseL rest id

/-- `implementation::load`: `layers_[render_layer].load(producer, option)` —
`operator[]` default-constructs the layer when the id is absent. -/
def devLoad (m : LayerMap) (id : Int) (p : Nat) (opt : LoadOpt) : LayerMap :=
  setL m id (((findL m id).getD defaultLayer).load p opt)

/-- `implementation::pause`: find the layer; absent ids are left untouched. -/
def devPause (m : LayerMap) (id : Int) : LayerMap :=
  match findL m id with
  | none => m
  | some l => setL m id l.pause

/-- `implementation::play`: find the layer; absent ids are left untouched. -/
def devPlay (m : LayerMap) (id : Int) : LayerMap :=
  match findL m id with
  | none => m
  | some l => setL m id l.play

/-- `implementation::stop`: find the layer, stop it, and erase it when it has
no background; absent ids are left untouched. -/
def devStop (m : LayerMap) (id : Int) : LayerMap :=
  match findL m id with
  | none => m
  | some l =>
    if l.stop.bg = none then eraseL m id else setL m id l.stop

/-- `implementation::clear(int)`: find the layer, clear it and erase it;
absent ids are left untouched. -/
def devClear (m : LayerMap) (id : Int) : LayerMap :=
  match findL m id with
  | none => m
  | some _ => eraseL m id

/-- `receive(std::map<int, layer>&)`: every layer receives (in ascending id
order; the tbb parallelism is deterministic per slot), yielding the composite
frame vector and the advanced layers. -/
def mapReceive (m : LayerMap) : List PFrame × LayerMap :=
  match m with
  | [] => ([], [])
  | (k, l) :: rest =>
    let (f, l') := l.receive
    let (fs, rest') := mapReceive rest
    (f :: fs, (k, l') :: rest')

/-- `implementation::tick`: the body receives all layers and submits the
composite to the frame processor; `raises` says whether anything in the try
block threw (the submit or the gather).  On an exception the catch clause
clears the whole layer map; in every case `executor_.begin_invoke([=]{tick();})`
re-arms the next tick (the returned flag). -/
def deviceTick (m : LayerMap) (raises : Bool) : LayerMap × Bool :=
  if raises then ([], true) else ((mapReceive m).2, true)

/-! ## ffmpeg consumer proxy (src/modules/ffmpeg/consumer/ffmpeg_consumer.cpp) -/

/-- One `ffmpeg_consumer`: its `ready_` flag, the encode executor's queue size
and capacity, and a count of `mark_dropped` calls (the `dropped-frame` graph
tag). -/
structure EncConsumer where
  ready : Bool
  qsize : Nat
  qcap : Nat
  dropped : Nat
deriving DecidableEq

/-- `ffmpeg_consumer::ready_for_frame`: ready and the encode executor not
full. -/
def readyForFrame (c : EncConsumer) : Bool :=
  c.ready && decide (c.qsize < c.qcap)

/-- `ffmpeg_consumer::send`: queues the encode job on the executor. -/
def encSend (c : EncConsumer) : EncConsumer := { c with qsize := c.qsize + 1 }

/-- `ffmpeg_consumer::mark_dropped`: tags a dropped frame; nothing else. -/
def markDropped (c : EncConsumer) : EncConsumer := { c with dropped := c.dropped + 1 }

/-- `ffmpeg_consumer_proxy` state: the fill consumer, the key-only consumer
(present iff `separate_key_`), and the recorder's timecode window (present iff
a recorder is attached). -/
structure ProxyState where
  consumer : EncConsumer
  keyConsumer : Option EncConsumer
  recorderRange : Option (Int × Int)
deriving DecidableEq

/-- `std::numeric_limits<int>::max()`. -/
def intMax : Int := 2147483647

/-- `ffmpeg_consumer_proxy::send`: when both consumers are ready the frame is
queued (subject to the recorder's timecode window when a recorder is
attached); otherwise both consumers mark the frame dropped.  Every path ends
in `return caspar::wrap_as_future(true)` — the boolean component. -/
def proxySend (st : ProxyState) (frameTc recTc : Int) : ProxyState × Bool :=
  let rff := readyForFrame st.consumer &&
    (match st.keyConsumer with | none => true | some k => readyForFrame k)
  if rff then
    match st.recorderRange with
    | some (tcin, tcout) =>
      let tc := if frameTc = intMax then recTc else frameTc
      if tc = intMax ∨ (tcin ≤ tc ∧ tc < tcout) then
        ({ st with consumer := encSend st.consumer,
                   keyConsumer := st.keyConsumer.map encSend }, true)
      else (st, true)
    | none =>
      ({ st with consumer := encSend st.consumer,
                 keyConsumer := st.keyConsumer.map encSend }, true)
  else
    ({ st with consumer := markDropped st.consumer,
               keyConsumer := st.keyConsumer.map markDropped }, true)

/-! ## Frame muxer (src/modules/ffmpeg/producer/muxer/frame_muxer.cpp)

`video_streams_` / `audio_streams_` are queues of sub-queues (front = head of
the list).  A `write_frame` is modelled as a video tag plus its attached audio
samples; `basic_frame::interlace` pairs two write frames.  The libavfilter
graph and `get_display_mode` (util.cpp, not among the sources) are outside the
model: a real video push carries the list of frames the filter emits for it,
and the established display mode lives in the state. -/

/-- `core::field_mode`. -/
inductive FieldMode where
  | progressive
  | upper
  | lower
deriving DecidableEq

/-- `display_mode::type`. -/
inductive DMode where
  | simple
  | duplicate
  | half
  | interlace
  | deinterlace
  | deinterlace_bob
  | scale_interlaced
  | invalid
deriving DecidableEq

/-- A `core::write_frame`: the decoded picture (as a tag) and the audio
samples later attached through `audio_data()`. -/
structure WFrame where
  vid : Nat
  aud : List Int
deriving DecidableEq

/-- A `core::basic_frame` the muxer emits: a single write frame, or
`basic_frame::interlace` of two write frames for the target field mode. -/
inductive BFrame where
  | single (w : WFrame)
  | interlaced (f1 f2 : WFrame) (fm : FieldMode)
deriving DecidableEq

/-- `frame_muxer::implementation` state: the two stream-of-streams buffers,
the emitted-frame buffer, the display mode, the rotating audio cadence, the
channel count and the target field mode. -/
structure MuxState where
  video_streams : List (List WFrame)
  audio_streams : List (List Int)
  frame_buffer : List BFrame
  display_mode : DMode
  cadence : List Nat
  channels : Nat
  field_mode : FieldMode
deriving DecidableEq

/-- `boost::range::rotate(audio_cadence_, begin + 1)`: one left rotation. -/
def rot1 (l : List Nat) : List Nat :=
  match l with
  | [] => []
  | x :: xs => xs ++ [x]

/-- `boost::range::rotate(audio_cadence_, end - 1)` in the constructor: one
right rotation (the last entry moves to the front). -/
def rotBack (l : List Nat) : List Nat :=
  match l.getLast? with
  | none => l
  | some a => a :: l.dropLast

/-- The constructor: one empty sub-queue in each stream, invalid display
mode, and the format's cadence rotated one step right. -/
def muxInit (cadence0 : List Nat) (channels : Nat) (fm : FieldMode) : MuxState :=
  { video_streams := [[]]
    audio_streams := [[]]
    frame_buffer := []
    display_mode := .invalid
    cadence := rotBack cadence0
    channels := channels
    field_mode := fm }

/-- Update the back (`.back()`) sub-queue of a stream-of-streams. -/
def updLast (f : List α → List α) : List (List α) → List (List α)
  | [] => [f []]
  | [x] => [f x]
  | x :: y :: rest => x :: updLast f (y :: rest)

/-- `audio_cadence_.front() * audio_channel_layout_.num_channels`. -/
def cadFront (s : MuxState) : Nat := s.cadence.headD 0 * s.channels

/-- A non-null video push: the flush sentinel, the empty-video sentinel, or a
real frame carrying the video tags the filter stage emits for it (the fast
path emits the frame itself). -/
inductive VInput where
  | flush
  | emptyV
  | real (outs : List Nat)

/-- A non-null audio push: the flush sentinel, the empty-audio sentinel, or a
block of decoded samples. -/
inductive AInput where
  | flush
  | emptyA
  | samples (xs : List Int)

/-- The buffering part of `implementation::push(AVFrame)` for a non-null
frame: flush pushes a new empty sub-queue; empty-video appends one blank
write frame to the back sub-queue (and forces simple mode); a real frame
appends every filter-emitted frame to the back sub-queue. -/
def pushVideoIns (s : MuxState) (v : VInput) : MuxState :=
  match v with
  | .flush => { s with video_streams := s.video_streams ++ [[]] }
  | .emptyV =>
      { s with
          video_streams := updLast (· ++ [{ vid := 0, aud := [] }]) s.video_streams,
          display_mode := .simple }
  | .real outs =>
      { s with
          video_streams :=
            updLast (· ++ outs.map fun t => { vid := t, aud := [] }) s.video_streams }

/-- `implementation::push(AVFrame)`: buffer the input, then a back sub-queue
longer than 32 raises `invalid_operation` (video-stream overflow). -/
def pushVideo (s : MuxState) (v : VInput) : Except Unit MuxState :=
  let s' := pushVideoIns s v
  if 32 < (s'.video_streams.getLastD []).length then .error () else .ok s'

/-- The buffering part of `implementation::push(audio_buffer)` for a non-null
buffer: flush pushes a new empty sub-queue; empty-audio appends
`cadence.front() * channels` zero samples; a sample block is appended to the
back sub-queue. -/
def pushAudioIns (s : MuxState) (a : AInput) : MuxState :=
  match a with
  | .flush => { s with audio_streams := s.audio_streams ++ [[]] }
  | .emptyA =>
      { s with
          audio_streams :=
            updLast (· ++ List.replicate (cadFront s) 0) s.audio_streams }
  | .samples xs => { s with audio_streams := updLast (· ++ xs) s.audio_streams }

/-- `implementation::push(audio_buffer)`: buffer the input, then a back
sub-queue longer than `32 * cadence.front() * channels` raises
`invalid_operation` (audio-stream overflow). -/
def pushAudio (s : MuxState) (a : AInput) : Except Unit MuxState :=
  let s' := pushAudioIns s a
  if 32 * (s'.cadence.headD 0) * s'.channels < (s'.audio_streams.getLastD []).length then
    .error ()
  else .ok s'

/-- `implementation::video_ready2`: interlace and half modes need two frames
in the front video sub-queue, the rest need one. -/
def videoReady2 (s : MuxState) : Bool :=
  match s.display_mode with
  | .interlace | .half => 2 ≤ (s.video_streams.headD []).length
  | _ => 1 ≤ (s.video_streams.headD []).length

/-- `implementation::audio_ready2`: duplicate mode needs a double audio
slice in the front sub-queue (integer halving), the rest a single one. -/
def audioReady2 (s : MuxState) : Bool :=
  match s.display_mode with
  | .duplicate => cadFront s ≤ (s.audio_streams.headD []).length / 2
  | _ => cadFront s ≤ (s.audio_streams.headD []).length

/-- `implementation::pop_video`: front frame of the front sub-queue. -/
def popVideo (s : MuxState) : WFrame × MuxState :=
  match s.video_streams with
  | [] => ({ vid := 0, aud := [] }, s)
  | q :: rest => (q.headD { vid := 0, aud := [] }, { s with video_streams := q.tail :: rest })

/-- The `CASPAR_VERIFY` guard of `implementation::pop_audio`: the front audio
sub-queue holds at least `cadence.front() * channels` samples. -/
def popAudioPre (s : MuxState) : Prop :=
  cadFront s ≤ (s.audio_streams.headD []).length

instance (s : MuxState) : Decidable (popAudioPre s) := by
  unfold popAudioPre; infer_instance

/-- `implementation::pop_audio`: slice `cadence.front() * channels` samples
off the front audio sub-queue and rotate the cadence one step left. -/
def popAudio (s : MuxState) : List Int × MuxState :=
  match s.audio_streams with
  | [] => ([], s)
  | q :: rest =>
    (q.take (cadFront s),
     { s with audio_streams := q.drop (cadFront s) :: rest, cadence := rot1 s.cadence })

/-- `poll`'s truncate guard: both streams have a later sub-queue and the
front pair cannot emit. -/
def truncateCond (s : MuxState) : Prop :=
  1 < s.video_streams.length ∧ 1 < s.audio_streams.length ∧
    (¬ videoReady2 s = true ∨ ¬ audioReady2 s = true)

instance (s : MuxState) : Decidable (truncateCond s) := by
  unfold truncateCond; infer_instance

/-- The emission pass of `implementation::poll` (reached with an empty frame
buffer): possibly truncate the front sub-queues, re-test readiness, then pop
one video frame, attach one audio slice, and buffer the per-mode output
frames (two video pops for interlace/scale-interlaced and half, two audio
slices for duplicate). -/
def pollEmit (s : MuxState) : Option BFrame × MuxState :=
  let s1 := if truncateCond s then
      { s with video_streams := s.video_streams.tail, audio_streams := s.audio_streams.tail }
    else s
  if ¬ videoReady2 s1 = true ∨ ¬ audioReady2 s1 = true ∨ s1.display_mode = .invalid then
    (none, s1)
  else
    let (f1, s2) := popVideo s1
    let (a1, s3) := popAudio s2
    let f1 := { f1 with aud := a1 }
    let step : List BFrame × MuxState :=
      match s3.display_mode with
      | .simple | .deinterlace | .deinterlace_bob => ([.single f1], s3)
      | .interlace | .scale_interlaced =>
          let (f2, s4) := popVideo s3
          ([.interlaced f1 f2 s4.field_mode], s4)
      | .duplicate =>
          let (a2, s4) := popAudio s3
          ([.single f1, .single { f1 with aud := a2 }], s4)
      | .half =>
          let (_, s4) := popVideo s3
          ([.single f1], s4)
      | .invalid => ([], s3)
    let s5 := { step.2 with frame_buffer := step.2.frame_buffer ++ step.1 }
    match s5.frame_buffer with
    | f :: rest => (some f, { s5 with frame_buffer := rest })
    | [] => (none, s5)

/-- `implementation::poll`: drain the frame buffer first; otherwise run the
emission pass (whose final `frame_buffer_.empty() ? nullptr : poll()` self
call pops the first frame it just buffered — inlined in `pollEmit`). -/
def poll (s : MuxState) : Option BFrame × MuxState :=
  match s.frame_buffer with
  | f :: fb => (some f, { s with frame_buffer := fb })
  | [] => pollEmit s

/-- Iterated `poll`, collecting the emitted frames in order. -/
def pollN (s : MuxState) : Nat → List BFrame × MuxState
  | 0 => ([], s)
  | n + 1 =>
    match poll s with
    | (none, s') => ((pollN s' n).1, (pollN s' n).2)
    | (some f, s') => (f :: (pollN s' n).1, (pollN s' n).2)

/-- State after `n` successive `pop_audio` slices. -/
def popAudioN (s : MuxState) : Nat → MuxState
  | 0 => s
  | n + 1 => popAudioN (popAudio s).2 n

/-- Total number of samples the next `n` `pop_audio` slices deliver. -/
def consumedN (s : MuxState) : Nat → Nat
  | 0 => 0
  | n + 1 => (popAudio s).1.length + consumedN (popAudio s).2 n

/-- All of the next `n` `pop_audio` calls meet the `CASPAR_VERIFY` guard. -/
def PreN (s : MuxState) : Nat → Prop
  | 0 => True
  | n + 1 => popAudioPre s ∧ PreN (popAudio s).2 n

/-! ## Concrete inputs used to settle the claims -/

/-- A cut transition of duration 2 whose leading (source) producer was never
set: `source_producer_` is null. -/
def c1cex : TState := transInit (constProd 1) { ttype := .cut, duration := 2, direction := .from_left }

/-- Spec-side reading of claim C3: the frame carries cross-faded audio for
blend ratio `alpha` — it is a composite whose source volume is
`255 * (1 - alpha)` and whose destination volume is `255 * alpha`. -/
def carriesCrossfade (f : PFrame) (alpha : ℚ) : Prop :=
  ∃ sf sa df da, f = .composite sf sa df da ∧
    (sa.volume : ℚ) = 255 * (1 - alpha) ∧ (da.volume : ℚ) = 255 * alpha

/-- A cut transition of duration 2 with live source and dest producers. -/
def c3cexCut : TState :=
  transInitLed (constProd 1) (constProd 2) { ttype := .cut, duration := 2, direction := .from_left }

/-- A mix transition of duration 2 with live source and dest producers. -/
def c3cexMix : TState :=
  transInitLed (constProd 1) (constProd 2) { ttype := .mix, duration := 2, direction := .from_left }

/-- A mix transition of duration 2 between two constant content producers
(used to witness the amended claim C1). -/
def c1wit : TState :=
  transInitLed (constProd 3) (constProd 4) { ttype := .mix, duration := 2, direction := .from_left }

/-- A cut transition of duration 5 whose source producer ends immediately
(yields `eof`, no following producer) while the dest keeps producing. -/
def c4cex : TState :=
  transInitLed eofProd (constProd 2) { ttype := .cut, duration := 5, direction := .from_left }

/-- A push transition of duration 5 whose source producer ends immediately
while the dest keeps producing (used to witness the amended claim C4). -/
def c4wit : TState :=
  transInitLed eofProd (constProd 2) { ttype := .push, duration := 5, direction := .from_left }

/-- The muxer fed by a 50p source into a 25p progressive target: half display
mode, one-entry audio cadence (2 samples per frame here), one channel. -/
def halfBase : MuxState :=
  { muxInit [2] 1 .progressive with display_mode := .half }

/-- Scenario 4 of the spec: inputs f1..f10 into the half-mode muxer (with
enough audio for five emissions), then six polls. -/
def halfScenario : Except Unit (List BFrame) := do
  let s1 ← pushAudio halfBase (.samples (List.replicate 10 0))
  let s2 ← List.foldlM (fun st i => pushVideo st (.real [i])) s1
    [1, 2, 3, 4, 5, 6, 7, 8, 9, 10]
  pure (pollN s2 6).1

/-- A muxer with cadence `{1, 2}`, one channel, and 3 samples queued (used to
witness claim C2). -/
def c2wit : MuxState :=
  { muxInit [1, 2] 1 .progressive with audio_streams := [[0, 0, 0]] }

/-- A reachable duplicate-mode state (29.97p/59.94-style source into a
59.94p target at 48 kHz: format cadence `{801, 800, 801, 800, 801}`, rotated
once right by the constructor and twice left by one previous duplicate
emission), whose front audio sub-queue holds exactly 1600 samples: enough for
`audio_ready2` (1600 / 2 ≥ 800) but not for the second slice of the
emission (800 left, 801 needed). -/
def c10state : MuxState :=
  { video_streams := [[{ vid := 1, aud := [] }]]
    audio_streams := [List.replicate 1600 0]
    frame_buffer := []
    display_mode := .duplicate
    cadence := [800, 801, 800, 801, 801]
    channels := 1
    field_mode := .progressive }

/-! ## Helper lemmas -/

theorem recvOnce_depth (p : SProducer) (k : Nat) (q : SProducer)
    (h : recvOnce p k = .inr q) : q.depth < p.depth := by
  obtain ⟨fr, ini, fol⟩ := p
  simp only [recvOnce] at h
  cases hfr : fr k with
  | throws => rw [hfr] at h; simp at h
  | ok f =>
    rw [hfr] at h
    by_cases hf : f = PFrame.eof
    · cases fol with
      | none => simp [hf] at h
      | some q' =>
        by_cases hi : q'.initFails <;> simp [hf, hi] at h
        subst h
        simp [SProducer.depth]
    · simp [hf] at h

theorem recvProdF_inl (fuel : Nat) (p : SProducer) (k : Nat) (r : PFrame × Slot)
    (h : recvOnce p k = .inl r) : recvProdF fuel p k = r := by
  cases fuel <;> simp [recvProdF, h]

/-- The fuel `recvProd` passes is always sufficient: any larger fuel computes
the same result, so the out-of-fuel branch of `recvProdF` is unreachable
from `recvProd`. -/
theorem recvProdF_fuel (p : SProducer) (k : Nat) :
    ∀ fuel, p.depth ≤ fuel → recvProdF fuel p k = recvProd p k := by
  have main : ∀ fuel fuel' (p : SProducer) (k : Nat), p.depth ≤ fuel → p.depth ≤ fuel' →
      recvProdF fuel p k = recvProdF fuel' p k := by
    intro fuel
    induction fuel with
    | zero =>
      intro fuel' p k hf _
      cases hro : recvOnce p k with
      | inl r => rw [recvProdF_inl 0 p k r hro, recvProdF_inl fuel' p k r hro]
      | inr q =>
        have := recvOnce_depth p k q hro
        omega
    | succ n ih =>
      intro fuel' p k hf hf'
      cases hro : recvOnce p k with
      | inl r => rw [recvProdF_inl _ p k r hro, recvProdF_inl _ p k r hro]
      | inr q =>
        have hq := recvOnce_depth p k q hro
        cases fuel' with
        | zero => omega
        | succ m =>
          simp only [recvProdF, hro]
          exact ih m q 0 (by omega) (by omega)
  intro fuel hfu
  exact main fuel p.depth p k hfu le_rfl

theorem innerReceive_wb (p : SProducer) (g : Nat → Nat)
    (hp : ∀ i, p.frames i = .ok (.content (g i))) (k : Nat) :
    innerReceive (some p, k) = (.content (g k), (some p, k + 1)) := by
  have h := hp k
  obtain ⟨fr, ini, fol⟩ := p
  simp only [SProducer.frames] at h
  show recvProd (.mk fr ini fol) k = _
  unfold recvProd
  apply recvProdF_inl
  simp [recvOnce, h]

theorem compose_isComposite (info : TInfo) (k : Nat) (df sf : PFrame)
    (hne : ¬(df = .eof ∧ sf = .eof)) (hcut : info.ttype ≠ .cut) :
    (compose info k df sf).isComposite = true := by
  unfold compose
  simp only [hne, if_false, hcut, if_false]
  cases info.ttype <;> simp [PFrame.isComposite]

theorem transRun_wb (sp dp : SProducer) (gs gd : Nat → Nat) (info : TInfo)
    (hs : ∀ i, sp.frames i = .ok (.content (gs i)))
    (hd : ∀ i, dp.frames i = .ok (.content (gd i)))
    (hD : info.duration < 65536) :
    ∀ k, k ≤ info.duration →
      transRun (transInitLed sp dp info) k =
        { src := (some sp, k), dst := (some dp, k), current := k, info := info } := by
  intro k
  induction k with
  | zero => intro _; rfl
  | succ n ih =>
    intro hle
    have hn : n ≤ info.duration := Nat.le_of_succ_le hle
    have hlt : n < info.duration := hle
    have := ih hn
    simp only [transRun, this, transReceive]
    rw [innerReceive_wb sp gs hs, innerReceive_wb dp gd hd]
    have hnd : ¬ info.duration ≤ n := Nat.not_le.mpr hlt
    simp [hnd, Nat.mod_eq_of_lt (Nat.lt_of_le_of_lt hle hD)]

theorem transReceive_info (s : TState) : (transReceive s).2.info = s.info := by
  unfold transReceive
  rcases hdf : innerReceive s.dst with ⟨df, ds⟩
  rcases hsf : innerReceive s.src with ⟨sf, ss⟩
  by_cases h : s.info.duration ≤ s.current <;> simp [h, hdf, hsf]

theorem transReceive_current (s : TState) :
    (transReceive s).2.current = (s.current + 1) % 65536 := by
  unfold transReceive
  rcases hdf : innerReceive s.dst with ⟨df, ds⟩
  rcases hsf : innerReceive s.src with ⟨sf, ss⟩
  by_cases h : s.info.duration ≤ s.current <;> simp [h, hdf, hsf]

theorem transRun_info (s : TState) : ∀ n, (transRun s n).info = s.info := by
  intro n
  induction n with
  | zero => rfl
  | succ m ih =>
    show (transReceive (transRun s m)).2.info = s.info
    rw [transReceive_info, ih]

theorem transRun_current (s : TState) (hs : s.current < 65536) :
    ∀ n, (transRun s n).current = (s.current + n) % 65536 := by
  intro n
  induction n with
  | zero => simpa using (Nat.mod_eq_of_lt hs).symm
  | succ m ih =>
    show (transReceive (transRun s m)).2.current = _
    rw [transReceive_current, ih]
    omega

theorem transNth_wb_eq (sp dp : SProducer) (gs gd : Nat → Nat) (info : TInfo)
    (hs : ∀ i, sp.frames i = .ok (.content (gs i)))
    (hd : ∀ i, dp.frames i = .ok (.content (gd i)))
    (hD : info.duration < 65536) (k : Nat) (hk : k < info.duration) :
    transNth (transInitLed sp dp info) k =
      compose info (k + 1) (.content (gd k)) (.content (gs k)) := by
  have hst := transRun_wb sp dp gs gd info hs hd hD k (le_of_lt hk)
  unfold transNth transReceive
  rw [hst]
  simp only [Nat.not_le.mpr hk, if_false]
  rw [innerReceive_wb dp gd hd, innerReceive_wb sp gs hs]
  simp only
  rw [Nat.mod_eq_of_lt (by omega)]

theorem compose_volumes (info : TInfo) (k : Nat) (df sf : PFrame)
    (hne : ¬(df = PFrame.eof ∧ sf = PFrame.eof)) (hcut : info.ttype ≠ .cut) :
    ∃ sa da, compose info k df sf = .composite sf sa df da ∧
      sa.volume = 255 - volumeCast k info.duration ∧
      da.volume = volumeCast k info.duration := by
  unfold compose
  rw [if_neg hne, if_neg hcut]
  cases htt : info.ttype <;> simp [htt] at hcut ⊢ <;>
    exact ⟨_, _, ⟨rfl, rfl⟩, rfl, rfl⟩

theorem compose_cut (info : TInfo) (k : Nat) (df sf : PFrame)
    (hne : ¬(df = PFrame.eof ∧ sf = PFrame.eof)) (hcut : info.ttype = .cut) :
    compose info k df sf = sf := by
  unfold compose
  rw [if_neg hne, if_pos hcut]

/-! ## Claim theorems: transition producer -/

/-- Claim C1, as stated, is false at a concrete input: a cut transition of
duration 2 with a non-null dest whose leading producer was never set returns
`eof` already on the first call (the cut branch forwards the source side's
`eof`), not a composite frame. -/
theorem C1_counterexample :
    ¬ ((∀ k, k < (2 : Nat) → (transNth c1cex k).isComposite = true) ∧
       transNth c1cex 2 = PFrame.eof ∧
       getFollowing (transRun c1cex 3) = some (constProd 1)) := by
  intro h
  have h0 := h.1 0 (by decide)
  have hev : transNth c1cex 0 = PFrame.eof := by decide
  rw [hev] at h0
  simp [PFrame.isComposite] at h0

/-- Claim C1 (amended): for every transition of duration `D` (any type, any
constituents — the counter increments on every call regardless of branch),
the `(D+1)`-th receive call returns `eof`; and when the type is not `cut`
and both constituents keep delivering plain content frames, the first `D`
calls return composite frames and `get_following_producer` afterwards
returns the destination producer passed at construction. -/
theorem C1_amended_thm :
    (∀ (src dst : Slot) (info : TInfo), info.duration < 65536 →
       transNth { src := src, dst := dst, current := 0, info := info }
         info.duration = PFrame.eof) ∧
    (∀ (sp dp : SProducer) (gs gd : Nat → Nat) (info : TInfo),
       (∀ i, sp.frames i = .ok (.content (gs i))) →
       (∀ i, dp.frames i = .ok (.content (gd i))) →
       info.duration < 65536 →
       (info.ttype ≠ .cut →
          ∀ k, k < info.duration →
            (transNth (transInitLed sp dp info) k).isComposite = true) ∧
       getFollowing (transRun (transInitLed sp dp info) (info.duration + 1)) = some dp) := by
  constructor
  · intro src dst info hD
    have hi := transRun_info
      { src := src, dst := dst, current := 0, info := info } info.duration
    have hc := transRun_current
      { src := src, dst := dst, current := 0, info := info }
      (by show (0 : Nat) < 65536; decide) info.duration
    unfold transNth transReceive
    rw [hi, hc]
    simp [Nat.mod_eq_of_lt hD]
  · intro sp dp gs gd info hs hd hD
    constructor
    · intro hcut k hk
      rw [transNth_wb_eq sp dp gs gd info hs hd hD k hk]
      exact compose_isComposite info _ _ _ (by simp) hcut
    · have hst := transRun_wb sp dp gs gd info hs hd hD info.duration le_rfl
      show getFollowing (transReceive (transRun (transInitLed sp dp info) info.duration)).2 = some dp
      rw [hst]
      unfold transReceive getFollowing
      simp

/-- Witness for the amended claim C1: the `eof` conjunct at the cut
transition of duration 2 with a null source (the counterexample's own
setup), and the composite/following conjuncts at a mix transition of
duration 2 with constant content producers. -/
theorem C1_witness :
    transNth c1cex 2 = PFrame.eof ∧
    ((∀ k, k < (2 : Nat) → (transNth c1wit k).isComposite = true) ∧
     getFollowing (transRun c1wit 3) = some (constProd 4)) := by
  constructor
  · exact C1_amended_thm.1 (none, 0) (some (constProd 1), 0)
      { ttype := .cut, duration := 2, direction := .from_left } (by decide)
  · have h := C1_amended_thm.2 (constProd 3) (constProd 4) (fun _ => 3) (fun _ => 4)
      { ttype := .mix, duration := 2, direction := .from_left }
      (fun _ => rfl) (fun _ => rfl) (by decide)
    exact ⟨h.1 (by decide), h.2⟩

/-- Claim C3, as stated, is false at concrete inputs: a cut transition's
emission carries no cross-fade at all (the source frame passes through
unchanged), and even a mix transition at `alpha = 1/2` carries destination
volume 128, not `255 * (1/2)`. -/
theorem C3_counterexample :
    ¬ carriesCrossfade (transNth c3cexCut 0) (1 / 2) ∧
    ¬ carriesCrossfade (transNth c3cexMix 0) (1 / 2) := by
  constructor
  · have h : transNth c3cexCut 0 = PFrame.content 1 := by decide
    rw [h]
    rintro ⟨sf, sa, df, da, heq, -, -⟩
    exact absurd heq (by simp)
  · have hwb := transNth_wb_eq (constProd 1) (constProd 2) (fun _ => 1) (fun _ => 2)
      { ttype := .mix, duration := 2, direction := .from_left }
      (fun _ => rfl) (fun _ => rfl) (by decide) 0 (by decide)
    obtain ⟨sa, da, hc, -, hda⟩ :=
      compose_volumes { ttype := .mix, duration := 2, direction := .from_left } 1
        (.content 2) (.content 1) (by simp) (by decide)
    rintro ⟨sf', sa', df', da', heq, -, hda'⟩
    rw [show c3cexMix = transInitLed (constProd 1) (constProd 2)
          { ttype := .mix, duration := 2, direction := .from_left } from rfl,
        hwb, hc] at heq
    obtain ⟨-, -, -, hdad⟩ := PFrame.composite.inj heq
    rw [← hdad, hda] at hda'
    have h128 : volumeCast 1 2 = 128 := by decide
    rw [h128] at hda'
    norm_num at hda'

/-- Claim C3 (amended): with live content-producing constituents, the `k`-th
emission (`k` from 1 to `D`, `alpha = k / D`) of every non-cut transition is
a composite whose source audio volume is `255 - v` and whose destination
audio volume is `v`, for `v = ⌊256 k / D⌋ mod 256` (the `unsigned char` cast
of `alpha * 256.0`; in particular `v = 0` at `k = D`, not 255); a cut
transition returns the source frame unchanged, with no volume change at
all. -/
theorem C3_amended_thm (sp dp : SProducer) (gs gd : Nat → Nat)
    (hs : ∀ i, sp.frames i = .ok (.content (gs i)))
    (hd : ∀ i, dp.frames i = .ok (.content (gd i))) :
    (∀ info : TInfo, info.ttype ≠ .cut → info.duration < 65536 →
       ∀ k, k < info.duration →
         ∃ sa da, transNth (transInitLed sp dp info) k =
             .composite (.content (gs k)) sa (.content (gd k)) da ∧
           sa.volume = 255 - volumeCast (k + 1) info.duration ∧
           da.volume = volumeCast (k + 1) info.duration) ∧
    (∀ info : TInfo, info.ttype = .cut → info.duration < 65536 →
       ∀ k, k < info.duration →
         transNth (transInitLed sp dp info) k = .content (gs k)) := by
  constructor
  · intro info hcut hD k hk
    rw [transNth_wb_eq sp dp gs gd info hs hd hD k hk]
    exact compose_volumes info (k + 1) _ _ (by simp) hcut
  · intro info hcut hD k hk
    rw [transNth_wb_eq sp dp gs gd info hs hd hD k hk]
    exact compose_cut info _ _ _ (by simp) hcut

/-- Witness for the amended claim C3: the mix transition of duration 2 at
its first emission (`alpha = 1/2`) carries volumes `(127, 128)`. -/
theorem C3_witness :
    ∃ sa da, transNth c3cexMix 0 =
        PFrame.composite (.content 1) sa (.content 2) da ∧
      sa.volume = 255 - volumeCast 1 2 ∧ da.volume = volumeCast 1 2 :=
  (C3_amended_thm (constProd 1) (constProd 2) (fun _ => 1) (fun _ => 2)
      (fun _ => rfl) (fun _ => rfl)).1
    { ttype := .mix, duration := 2, direction := .from_left }
    (by decide) (by decide) 0 (by decide)

/-- Claim C4, as stated, is false at a concrete input: in a cut transition
whose source yields `eof` while the dest yields a content frame (exactly one
constituent at `eof`), `receive` returns `eof` — the source frame passed
through the cut branch — not an empty frame. -/
theorem C4_counterexample :
    (innerReceive c4cex.src).1 = PFrame.eof ∧
    (innerReceive c4cex.dst).1 = PFrame.content 2 ∧
    transNth c4cex 0 = PFrame.eof ∧
    ¬ transNth c4cex 0 = PFrame.empty := by decide

/-- Claim C4 (amended): on a tick where exactly one constituent yields
`eof`, a cut transition returns the source-side frame as is (hence `eof`
when the source is the side that ended), and every other type returns a
composite of the two frames, with the `eof` side embedded in the composite —
not the empty sentinel frame. -/
theorem C4_amended_thm (st : TState) (hcur : st.current < st.info.duration)
    (hone : ((innerReceive st.src).1 = PFrame.eof ∧ (innerReceive st.dst).1 ≠ PFrame.eof) ∨
            ((innerReceive st.src).1 ≠ PFrame.eof ∧ (innerReceive st.dst).1 = PFrame.eof)) :
    (st.info.ttype = .cut → (transReceive st).1 = (innerReceive st.src).1) ∧
    (st.info.ttype ≠ .cut →
      ∃ sa da, (transReceive st).1 =
        .composite (innerReceive st.src).1 sa (innerReceive st.dst).1 da) := by
  rcases hdf : innerReceive st.dst with ⟨df, dslot⟩
  rcases hsf : innerReceive st.src with ⟨sf, sslot⟩
  rw [hdf, hsf] at hone
  simp only at hone
  have hne : ¬(df = PFrame.eof ∧ sf = PFrame.eof) := by
    rcases hone with ⟨h1, h2⟩ | ⟨h1, h2⟩ <;> simp_all
  constructor
  · intro hcut
    unfold transReceive
    rw [if_neg (Nat.not_le.mpr hcur), hdf, hsf]
    simp only
    exact compose_cut st.info _ _ _ hne hcut
  · intro hcut
    unfold transReceive
    rw [if_neg (Nat.not_le.mpr hcur), hdf, hsf]
    simp only
    exact compose_volumes st.info _ _ _ hne hcut |>.imp
      fun sa h => h.imp fun da h' => h'.1

/-- Witness for the amended claim C4 at a push transition whose source ends
immediately while the dest keeps producing. -/
theorem C4_witness :
    (c4wit.info.ttype = .cut → (transReceive c4wit).1 = (innerReceive c4wit.src).1) ∧
    (c4wit.info.ttype ≠ .cut →
      ∃ sa da, (transReceive c4wit).1 =
        .composite (innerReceive c4wit.src).1 sa (innerReceive c4wit.dst).1 da) :=
  C4_amended_thm c4wit (by decide) (Or.inl ⟨by decide, by decide⟩)

/-! ## Claim theorems: producer device and consumer -/

/-- Claim C5: whatever the layer map and whether the tick body raises, the
next tick is always scheduled, and a raising tick leaves the layer map
cleared — the output clock never stops on a tick exception. -/
theorem C5_thm : ∀ (m : LayerMap) (raises : Bool),
    (deviceTick m raises).2 = true ∧ (deviceTick m true).1 = [] := by
  intro m raises
  constructor
  · unfold deviceTick
    cases raises <;> simp
  · rfl

/-- Claim C8, as stated, is false at a concrete input: `load` on a layer id
absent from the map inserts a fresh layer (`std::map::operator[]`
default-constructs), so the map does not stay unchanged. -/
theorem C8_counterexample :
    devLoad [] 0 7 .preview ≠ ([] : LayerMap) := by decide

/-- Claim C8 (amended): `play`, `pause`, `stop` and `clear` on a layer id
absent from the map are no-ops, but `load` on an absent id creates the layer
(default-constructed by `operator[]`) and loads into it. -/
theorem C8_amended_thm (m : LayerMap) (id : Int) (h : findL m id = none) :
    devPause m id = m ∧ devPlay m id = m ∧ devStop m id = m ∧ devClear m id = m ∧
    devLoad m id 7 .preview = setL m id (defaultLayer.load 7 .preview) := by
  refine ⟨?_, ?_, ?_, ?_, ?_⟩ <;> simp [devPause, devPlay, devStop, devClear, devLoad, h]

/-- Witness for the amended claim C8 on a one-layer map and a missing id. -/
theorem C8_witness :
    devPause [((1 : Int), defaultLayer)] 0 = [((1 : Int), defaultLayer)] ∧
    devPlay [((1 : Int), defaultLayer)] 0 = [((1 : Int), defaultLayer)] ∧
    devStop [((1 : Int), defaultLayer)] 0 = [((1 : Int), defaultLayer)] ∧
    devClear [((1 : Int), defaultLayer)] 0 = [((1 : Int), defaultLayer)] ∧
    devLoad [((1 : Int), defaultLayer)] 0 7 .preview =
      setL [((1 : Int), defaultLayer)] 0 (defaultLayer.load 7 .preview) :=
  C8_amended_thm [((1 : Int), defaultLayer)] 0 (by decide)

/-- Claim C9: the ffmpeg consumer proxy's `send` future always resolves to
`true` — when the frame is queued for encoding, when the recorder's timecode
window skips it, and when a full executor makes both consumers merely mark
it dropped — so callers cannot distinguish accept from drop. -/
theorem C9_thm : ∀ (st : ProxyState) (frameTc recTc : Int),
    (proxySend st frameTc recTc).2 = true ∧
    ((readyForFrame st.consumer &&
        (match st.keyConsumer with | none => true | some k => readyForFrame k)) = false →
      (proxySend st frameTc recTc).1.consumer = markDropped st.consumer) ∧
    ((readyForFrame st.consumer &&
        (match st.keyConsumer with | none => true | some k => readyForFrame k)) = true →
      st.recorderRange = none →
      (proxySend st frameTc recTc).1.consumer = encSend st.consumer) := by
  intro st frameTc recTc
  refine ⟨?_, ?_, ?_⟩
  · unfold proxySend
    rcases hr : (readyForFrame st.consumer &&
        (match st.keyConsumer with | none => true | some k => readyForFrame k)) with - | -
    · simp [hr]
    · simp only [hr, if_true]
      rcases st.recorderRange with - | ⟨tcin, tcout⟩
      · simp
      · by_cases htc : ((if frameTc = intMax then recTc else frameTc) = intMax ∨
            (tcin ≤ (if frameTc = intMax then recTc else frameTc) ∧
              (if frameTc = intMax then recTc else frameTc) < tcout)) <;>
          simp [htc]
  · intro hr
    unfold proxySend
    rw [hr]
    simp
  · intro hr hrec
    unfold proxySend
    rw [hr, hrec]
    simp

/-- Witness for claim C9: a full executor (size = capacity) drops and still
returns `true`. -/
theorem C9_witness :
    (proxySend { consumer := { ready := true, qsize := 3, qcap := 3, dropped := 0 },
                 keyConsumer := none, recorderRange := none } 0 0).2 = true ∧
    (proxySend { consumer := { ready := true, qsize := 3, qcap := 3, dropped := 0 },
                 keyConsumer := none, recorderRange := none } 0 0).1.consumer =
      markDropped { ready := true, qsize := 3, qcap := 3, dropped := 0 } := by
  have h := C9_thm { consumer := { ready := true, qsize := 3, qcap := 3, dropped := 0 },
                     keyConsumer := none, recorderRange := none } 0 0
  exact ⟨h.1, h.2.1 (by decide)⟩

/-! ## Claim theorems: frame muxer -/

theorem pushAudioIns_cadence (s : MuxState) (a : AInput) :
    (pushAudioIns s a).cadence = s.cadence ∧ (pushAudioIns s a).channels = s.channels := by
  cases a <;> simp [pushAudioIns]

/-- Claim C6: a video push raises the invalid-operation stream error exactly
when the back video sub-queue exceeds 32 frames after the insertion, an
audio push exactly when the back audio sub-queue exceeds
`32 * cadence.front() * channels` samples after the insertion; a push within
the bounds returns normally with just the insertion applied. -/
theorem C6_thm : ∀ (s : MuxState) (v : VInput) (a : AInput),
    (pushVideo s v = .error () ↔
      32 < ((pushVideoIns s v).video_streams.getLastD []).length) ∧
    (pushVideo s v = .ok (pushVideoIns s v) ↔
      ((pushVideoIns s v).video_streams.getLastD []).length ≤ 32) ∧
    (pushAudio s a = .error () ↔
      32 * s.cadence.headD 0 * s.channels <
        ((pushAudioIns s a).audio_streams.getLastD []).length) ∧
    (pushAudio s a = .ok (pushAudioIns s a) ↔
      ((pushAudioIns s a).audio_streams.getLastD []).length ≤
        32 * s.cadence.headD 0 * s.channels) := by
  intro s v a
  have hcad := (pushAudioIns_cadence s a).1
  have hch := (pushAudioIns_cadence s a).2
  refine ⟨?_, ?_, ?_, ?_⟩
  · by_cases h : 32 < ((pushVideoIns s v).video_streams.getLastD []).length <;>
      simp [pushVideo, h]
  · by_cases h : 32 < ((pushVideoIns s v).video_streams.getLastD []).length <;>
      simp [pushVideo, h]
  · by_cases h : 32 * s.cadence.headD 0 * s.channels <
        ((pushAudioIns s a).audio_streams.getLastD []).length <;>
      simp [pushAudio, hcad, hch, h]
  · by_cases h : 32 * s.cadence.headD 0 * s.channels <
        ((pushAudioIns s a).audio_streams.getLastD []).length <;>
      simp [pushAudio, hcad, hch, h]

/-- Witness for claim C6: pushing one real frame into a fresh muxer returns
normally, and the back sub-queue bound is respected. -/
theorem C6_witness :
    (pushVideo (muxInit [2] 1 .progressive) (.real [5]) =
        .ok (pushVideoIns (muxInit [2] 1 .progressive) (.real [5])) ↔
      ((pushVideoIns (muxInit [2] 1 .progressive)
          (.real [5])).video_streams.getLastD []).length ≤ 32) :=
  (C6_thm (muxInit [2] 1 .progressive) (.real [5]) .flush).2.1

theorem popAudio_spec (s : MuxState) (hne : s.audio_streams ≠ []) (hpre : popAudioPre s) :
    (popAudio s).1.length = s.cadence.headD 0 * s.channels ∧
    (popAudio s).2.cadence = rot1 s.cadence ∧
    (popAudio s).2.channels = s.channels ∧
    (popAudio s).2.audio_streams =
      (s.audio_streams.headD []).drop (cadFront s) :: s.audio_streams.tail := by
  rcases hs : s.audio_streams with - | ⟨q, rest⟩
  · exact absurd hs hne
  · unfold popAudioPre at hpre
    rw [hs] at hpre
    simp only [List.headD_cons] at hpre
    unfold popAudio
    rw [hs]
    refine ⟨?_, rfl, rfl, rfl⟩
    rw [List.length_take]
    show min (cadFront s) q.length = s.cadence.headD 0 * s.channels
    have : cadFront s = s.cadence.headD 0 * s.channels := rfl
    rw [← this]
    exact Nat.min_eq_left hpre

theorem rot1_eq_rotate (l : List Nat) : rot1 l = l.rotate 1 := by
  cases l with
  | nil => rfl
  | cons x xs => simp [rot1, List.rotate_cons_succ, List.rotate_zero]

theorem popAudioN_cycle : ∀ (k : Nat) (s : MuxState), s.audio_streams ≠ [] →
    k ≤ s.cadence.length → PreN s k →
    consumedN s k = (s.cadence.take k).sum * s.channels ∧
    (popAudioN s k).cadence = s.cadence.rotate k ∧
    (popAudioN s k).channels = s.channels ∧
    (popAudioN s k).audio_streams ≠ [] := by
  intro k
  induction k with
  | zero =>
    intro s hne _ _
    simp [consumedN, popAudioN, hne]
  | succ n ih =>
    intro s hne hlen hpre
    obtain ⟨hp, hpn⟩ := hpre
    obtain ⟨hl, hc, hch, hstr⟩ := popAudio_spec s hne hp
    have hne' : (popAudio s).2.audio_streams ≠ [] := by
      rw [hstr]
      simp
    rcases hcs : s.cadence with - | ⟨c0, ct⟩
    · rw [hcs] at hlen
      simp at hlen
    · have hlen' : n ≤ (popAudio s).2.cadence.length := by
        rw [hc, hcs]
        simp [rot1]
        rw [hcs] at hlen
        simp at hlen
        omega
      obtain ⟨ihc, ihr, ihch, ihne⟩ := ih (popAudio s).2 hne' hlen' hpn
      refine ⟨?_, ?_, ?_, ?_⟩
      · show (popAudio s).1.length + consumedN (popAudio s).2 n = _
        rw [hl, ihc, hch, hc, hcs]
        have htk : (rot1 (c0 :: ct)).take n = ct.take n := by
          rw [hcs] at hlen
          simp only [List.length_cons] at hlen
          simp only [rot1]
          rw [List.take_append_of_le_length (by omega)]
        rw [htk]
        simp [Nat.add_mul, Nat.mul_comm]
        ring
      · show (popAudioN (popAudio s).2 n).cadence = _
        rw [ihr, hc, rot1_eq_rotate, List.rotate_rotate, Nat.add_comm 1 n, hcs]
      · show (popAudioN (popAudio s).2 n).channels = _
        rw [ihch, hch]
      · exact ihne

theorem consumedN_add : ∀ (a : Nat) (s : MuxState) (b : Nat),
    consumedN s (a + b) = consumedN s a + consumedN (popAudioN s a) b := by
  intro a
  induction a with
  | zero => intro s b; simp [consumedN, popAudioN]
  | succ n ih =>
    intro s b
    have hsh : (n + 1) + b = (n + b) + 1 := by omega
    rw [hsh]
    show (popAudio s).1.length + consumedN (popAudio s).2 (n + b) = _
    rw [ih (popAudio s).2 b]
    show _ = ((popAudio s).1.length + consumedN (popAudio s).2 n) +
      consumedN (popAudioN (popAudio s).2 n) b
    omega

theorem PreN_add : ∀ (a : Nat) (s : MuxState) (b : Nat),
    PreN s (a + b) ↔ PreN s a ∧ PreN (popAudioN s a) b := by
  intro a
  induction a with
  | zero => intro s b; simp [PreN, popAudioN]
  | succ n ih =>
    intro s b
    have hsh : (n + 1) + b = (n + b) + 1 := by omega
    rw [hsh]
    show popAudioPre s ∧ PreN (popAudio s).2 (n + b) ↔ _
    rw [ih (popAudio s).2 b]
    show _ ↔ (popAudioPre s ∧ PreN (popAudio s).2 n) ∧ PreN (popAudioN (popAudio s).2 n) b
    tauto

/-- Claim C2: a `pop_audio` meeting its guard slices exactly
`cadence.front() * channels` samples off the front audio sub-queue and
rotates the cadence one step left; an audio flush pushes a new sub-queue
without touching the cadence; and over any `K * |cadence|` consecutive
slices the samples consumed total `K * (Σ cadence) * channels`. -/
theorem C2_thm :
    (∀ s : MuxState, s.audio_streams ≠ [] → popAudioPre s →
       (popAudio s).1.length = s.cadence.headD 0 * s.channels ∧
       (popAudio s).2.cadence = rot1 s.cadence ∧
       (popAudio s).2.audio_streams =
         (s.audio_streams.headD []).drop (cadFront s) :: s.audio_streams.tail) ∧
    (∀ s : MuxState,
       pushAudio s .flush = .ok { s with audio_streams := s.audio_streams ++ [[]] }) ∧
    (∀ (K : Nat) (s : MuxState), s.audio_streams ≠ [] → PreN s (K * s.cadence.length) →
       consumedN s (K * s.cadence.length) = K * (s.cadence.sum * s.channels)) := by
  refine ⟨?_, ?_, ?_⟩
  · intro s hne hpre
    exact ⟨(popAudio_spec s hne hpre).1, (popAudio_spec s hne hpre).2.1,
      (popAudio_spec s hne hpre).2.2.2⟩
  · intro s
    unfold pushAudio pushAudioIns
    simp
  · intro K
    induction K with
    | zero => intro s _ _; simp [consumedN]
    | succ n ih =>
      intro s hne hpre
      have hsh : (n + 1) * s.cadence.length = s.cadence.length + n * s.cadence.length := by
        ring
      rw [hsh] at hpre ⊢
      rw [consumedN_add s.cadence.length s (n * s.cadence.length)]
      obtain ⟨hp1, hp2⟩ := (PreN_add s.cadence.length s (n * s.cadence.length)).mp hpre
      obtain ⟨hcyc, hrot, hch, hne'⟩ := popAudioN_cycle s.cadence.length s hne le_rfl hp1
      rw [List.rotate_length] at hrot
      have hlen' : (popAudioN s s.cadence.length).cadence.length = s.cadence.length := by
        rw [hrot]
      rw [hcyc, List.take_length]
      have := ih (popAudioN s s.cadence.length) hne' (by rw [hrot]; exact hp2)
      rw [hrot, hch] at this
      rw [this]
      ring

/-- Witness for claim C2: a muxer with cadence `{1, 2}` (held rotated as
`[2, 1]`), one channel and 3 queued samples consumes all 3 over one full
cadence cycle. -/
theorem C2_witness : consumedN c2wit (1 * 2) = 1 * (3 * 1) :=
  C2_thm.2.2 1 c2wit (by decide) ⟨by decide, by decide, trivial⟩

/-- Claim C7: in half display mode the muxer emits only when the front video
sub-queue holds at least two frames; an emission on a single-segment state
consumes two queued frames, attaches one audio slice, and outputs the first
frame only; and for a 50p source into a 25p progressive target with inputs
f1..f10 the emitted sequence is exactly f1, f3, f5, f7, f9. -/
theorem C7_thm :
    (∀ s : MuxState, s.display_mode = .half → s.frame_buffer = [] → ¬ truncateCond s →
       (poll s).1.isSome = true → 2 ≤ (s.video_streams.headD []).length) ∧
    (∀ (f1 f2 : WFrame) (q2 : List WFrame) (aq : List Int) (cad : List Nat)
       (ch : Nat) (fm : FieldMode), cad.headD 0 * ch ≤ aq.length →
       poll { video_streams := [f1 :: f2 :: q2], audio_streams := [aq],
              frame_buffer := [], display_mode := .half, cadence := cad,
              channels := ch, field_mode := fm } =
         (some (.single { vid := f1.vid, aud := aq.take (cad.headD 0 * ch) }),
          { video_streams := [q2], audio_streams := [aq.drop (cad.headD 0 * ch)],
            frame_buffer := [], display_mode := .half, cadence := rot1 cad,
            channels := ch, field_mode := fm })) ∧
    halfScenario = .ok [.single { vid := 1, aud := [0, 0] },
      .single { vid := 3, aud := [0, 0] }, .single { vid := 5, aud := [0, 0] },
      .single { vid := 7, aud := [0, 0] }, .single { vid := 9, aud := [0, 0] }] := by
  refine ⟨?_, ?_, ?_⟩
  · intro s hdm hfb htr hsome
    by_contra hlen
    have hv : videoReady2 s = false := by
      unfold videoReady2
      rw [hdm]
      simpa using hlen
    have hpoll : poll s = pollEmit s := by
      unfold poll
      rw [hfb]
    rw [hpoll] at hsome
    unfold pollEmit at hsome
    rw [if_neg htr] at hsome
    rw [if_pos (Or.inl (by simp [hv]))] at hsome
    simp at hsome
  · intro f1 f2 q2 aq cad ch fm ha
    unfold poll pollEmit
    rw [if_neg (show ¬ truncateCond _ from by unfold truncateCond; simp)]
    rw [if_neg (by
      simp only [videoReady2, audioReady2, cadFront]
      simp
      simpa using ha)]
    simp [popVideo, popAudio, cadFront]
  · rfl

/-- Witness for claim C7: a half-mode emission on a concrete two-frame
state outputs the first frame and drops the second. -/
theorem C7_witness :
    poll { video_streams := [{ vid := 1, aud := [] } :: { vid := 2, aud := [] } :: []],
           audio_streams := [[0, 0, 0]], frame_buffer := [],
           display_mode := .half, cadence := [2], channels := 1,
           field_mode := .progressive } =
      (some (.single { vid := 1, aud := [0, 0, 0].take (([2] : List Nat).headD 0 * 1) }),
       { video_streams := [([] : List WFrame)],
         audio_streams := [[0, 0, 0].drop (([2] : List Nat).headD 0 * 1)],
         frame_buffer := [], display_mode := .half, cadence := rot1 [2],
         channels := 1, field_mode := .progressive }) :=
  C7_thm.2.1 { vid := 1, aud := [] } { vid := 2, aud := [] } [] [0, 0, 0] [2] 1
    .progressive (by decide)

set_option maxRecDepth 20000 in
/-- Claim C10 fails on the code (the code contradicts its own
`CASPAR_VERIFY`): in the reachable duplicate-mode state `c10state` the ready
predicates pass and poll emits, the first `pop_audio` meets its guard, but
after its cadence rotation the second `pop_audio` of the same emission finds
only 800 samples where 801 are required — the assertion fires. -/
theorem C10_bug_thm :
    videoReady2 c10state = true ∧ audioReady2 c10state = true ∧
    (poll c10state).1.isSome = true ∧
    popAudioPre (popVideo c10state).2 ∧
    ¬ popAudioPre (popAudio (popVideo c10state).2).2 := by decide

end CasparSpec
